import Mathlib

/-
Verification of the AssetStorage contract
(src/Hardhat/contracts/AssetStorage.sol) of the
Blokzincir-Icin-Metaverse-Uygulamasi repository.

The contract is

  contract AssetStorage {
      uint256 public nextId;
      mapping(uint256 => string) public cids;
      event AssetRegistered(uint256 indexed id, string cid);
      function register(string calldata cid) external returns (uint256 id) {
          id = nextId;
          cids[id] = cid;
          emit AssetRegistered(id, cid);
          nextId++;
      }
  }

The storage mapping is embedded as the list of storage writes, most recent
first; lookup returns the most recent write for a key and the Solidity
zero value for string (the empty string) for a never-written key. The
counter is embedded as a Nat: reaching the uint256 overflow point would
require 2^256 prior transactions, so every execution considered here is
exactly the checked-arithmetic behaviour of the contract.
-/

set_option autoImplicit false

namespace AssetStorage

/-- The writes ever made to the Solidity mapping
`mapping(uint256 => string) public cids`, most recent first. -/
abbrev StorageWrites := List (Nat × String)

/-- Lookup in the embedded mapping: the most recent write to a key wins;
a never-written key yields the Solidity zero value for `string`, namely
the empty string. -/
def mapLookup (h : Nat) : StorageWrites → String
  | [] => ""
  | (k, v) :: t => if h = k then v else mapLookup h t

/-- The contract storage:
`uint256 public nextId; mapping(uint256 => string) public cids;`. -/
structure State where
  nextId : Nat
  cids : StorageWrites

/-- A freshly deployed contract: all storage zero-initialised. -/
def initialState : State := { nextId := 0, cids := [] }

/-- The auto-generated public getter for `cids`: returns `cids[h]`, the
empty string when the key was never written. -/
def cidsGetter (s : State) (h : Nat) : String := mapLookup h s.cids

/-- The auto-generated public getter for `nextId`; this is the `count()`
accessor of the registry design. -/
def count (s : State) : Nat := s.nextId

/-- The event `AssetRegistered(uint256 indexed id, string cid)`. -/
structure AssetRegistered where
  id : Nat
  cid : String

/-- The contract state at the moment `emit AssetRegistered(id, cid)`
executes inside `register`: after the store `cids[id] = cid` and before
the increment `nextId++`. -/
def emitPointState (s : State) (cid : String) : State :=
  { s with cids := (s.nextId, cid) :: s.cids }

/-- The observable outcome of a `register` call: the returned `id`, the
events emitted, and the post-state. `register` is a total function: the
contract body has no `require`, no `revert` and no validation of `cid`. -/
structure RegisterResult where
  id : Nat
  events : List AssetRegistered
  state : State

/-- `function register(string calldata cid) external returns (uint256 id)`:
`id = nextId; cids[id] = cid; emit AssetRegistered(id, cid); nextId++;`. -/
def register (s : State) (cid : String) : RegisterResult :=
  let id := s.nextId
  let s1 := emitPointState s cid
  { id := id
    events := [{ id := id, cid := cid }]
    state := { s1 with nextId := s1.nextId + 1 } }

/-- Modelled from the spec: the repository source has no `getRecord`
function (only the auto-generated `cids` getter exists); the spec defines
the read-only lookup `getRecord(handle) -> cid | NotFound`, with
`NotFound` when `handle >= nextHandle`, `NotFound` being a normal result
value and not an exception. Embedded with `Option`: `none` is `NotFound`. -/
def getRecord (s : State) (h : Nat) : Option String :=
  if h < s.nextId then some (cidsGetter s h) else none

/-- Serial execution: fold `register` over a list of CIDs from a state. -/
def runFrom (s : State) : List String → State
  | [] => s
  | cid :: t => runFrom (register s cid).state t

/-- Serial execution from a freshly deployed contract. -/
def run (l : List String) : State := runFrom initialState l

/-- The handles returned, in call-completion order, by serially
registering the given CIDs from a state. -/
def handlesFrom (s : State) : List String → List Nat
  | [] => []
  | cid :: t => (register s cid).id :: handlesFrom (register s cid).state t

/-- Every key ever written to the `cids` mapping is strictly below
`nextId`. -/
def keysBounded (s : State) : Prop :=
  ∀ k ∈ s.cids.map Prod.fst, k < s.nextId

instance (s : State) : Decidable (keysBounded s) :=
  List.decidableBAll (· < s.nextId) (s.cids.map Prod.fst)

theorem register_id (s : State) (cid : String) :
    (register s cid).id = s.nextId := rfl

theorem register_nextId (s : State) (cid : String) :
    (register s cid).state.nextId = s.nextId + 1 := rfl

theorem register_cids (s : State) (cid : String) :
    (register s cid).state.cids = (s.nextId, cid) :: s.cids := rfl

theorem register_events (s : State) (cid : String) :
    (register s cid).events = [{ id := s.nextId, cid := cid }] := rfl

theorem cidsGetter_register_self (s : State) (cid : String) :
    cidsGetter (register s cid).state s.nextId = cid := by
  simp [cidsGetter, register, emitPointState, mapLookup]

theorem cidsGetter_register_frame (s : State) (cid : String) (h : Nat)
    (hne : h ≠ s.nextId) :
    cidsGetter (register s cid).state h = cidsGetter s h := by
  simp [cidsGetter, register, emitPointState, mapLookup, hne]

theorem runFrom_append (s : State) (l₁ l₂ : List String) :
    runFrom s (l₁ ++ l₂) = runFrom (runFrom s l₁) l₂ := by
  induction l₁ generalizing s with
  | nil => rfl
  | cons c t ih => simpa [runFrom] using ih (register s c).state

theorem run_append (l₁ l₂ : List String) :
    run (l₁ ++ l₂) = runFrom (run l₁) l₂ :=
  runFrom_append initialState l₁ l₂

theorem runFrom_nextId_le (s : State) (l : List String) :
    s.nextId ≤ (runFrom s l).nextId := by
  induction l generalizing s with
  | nil => exact Nat.le_refl _
  | cons c t ih =>
    have h1 := ih (register s c).state
    rw [register_nextId] at h1
    exact Nat.le_trans (Nat.le_succ _) h1

theorem cidsGetter_runFrom_frame (s : State) (l : List String) (h : Nat)
    (hh : h < s.nextId) :
    cidsGetter (runFrom s l) h = cidsGetter s h := by
  induction l generalizing s with
  | nil => rfl
  | cons c t ih =>
    have h1 : h ≠ s.nextId := Nat.ne_of_lt hh
    have h2 : h < (register s c).state.nextId := by
      rw [register_nextId]; omega
    calc cidsGetter (runFrom (register s c).state t) h
        = cidsGetter (register s c).state h := ih (register s c).state h2
      _ = cidsGetter s h := cidsGetter_register_frame s c h h1

theorem keysBounded_initial : keysBounded initialState := by
  intro k hk
  simp [initialState] at hk

theorem keysBounded_register (s : State) (cid : String)
    (hs : keysBounded s) : keysBounded (register s cid).state := by
  intro k hk
  rw [register_cids, register_nextId] at *
  simp only [List.map_cons, List.mem_cons] at hk
  rcases hk with hk | hk
  · omega
  · exact Nat.lt_succ_of_lt (hs k hk)

theorem keysBounded_runFrom (s : State) (l : List String)
    (hs : keysBounded s) : keysBounded (runFrom s l) := by
  induction l generalizing s with
  | nil => exact hs
  | cons c t ih => exact ih (register s c).state (keysBounded_register s c hs)

theorem keysBounded_run (l : List String) : keysBounded (run l) :=
  keysBounded_runFrom initialState l keysBounded_initial

theorem mapLookup_not_mem (h : Nat) (m : StorageWrites)
    (hm : h ∉ m.map Prod.fst) : mapLookup h m = "" := by
  induction m with
  | nil => rfl
  | cons p t ih =>
    simp only [List.map_cons, List.mem_cons, not_or] at hm
    simp [mapLookup, hm.1, ih hm.2]

theorem cidsGetter_unassigned (s : State) (h : Nat) (hs : keysBounded s)
    (hh : s.nextId ≤ h) : cidsGetter s h = "" := by
  apply mapLookup_not_mem
  intro hmem
  exact absurd (hs h hmem) (by omega)

theorem handlesFrom_eq_range' (s : State) (l : List String) :
    handlesFrom s l = List.range' s.nextId l.length := by
  induction l generalizing s with
  | nil => rfl
  | cons c t ih =>
    rw [handlesFrom, ih (register s c).state, register_id, register_nextId,
      List.length_cons, List.range'_succ]

/-- Claim C1: for every string cid and every registry state, register(cid)
assigns handle = nextId, stores the record for that handle, increments
nextId by exactly one, emits the AssetRegistered event carrying the handle
and the cid, and adds exactly one new record, leaving all other storage
unchanged. -/
theorem claim_C1_register_effects (s : State) (cid : String) :
    (register s cid).id = s.nextId ∧
    cidsGetter (register s cid).state s.nextId = cid ∧
    (register s cid).state.nextId = s.nextId + 1 ∧
    (register s cid).events = [{ id := s.nextId, cid := cid }] ∧
    (register s cid).state.cids = (s.nextId, cid) :: s.cids :=
  ⟨rfl, cidsGetter_register_self s cid, rfl, rfl, rfl⟩

/-- Claim C2: starting from the freshly deployed contract, serially
registering any list of N CIDs returns exactly the handles
0, 1, ..., N-1 in call-completion order. -/
theorem claim_C2_handles_zero_to_n (l : List String) :
    handlesFrom initialState l = List.range l.length := by
  rw [handlesFrom_eq_range', List.range_eq_range']
  rfl

/-- Claim C3: in every registry state and for every handle, getRecord
returns NotFound (none) if and only if the handle is at least nextId;
getRecord is a total function and NotFound is one of its ordinary return
values, not an exception. -/
theorem claim_C3_getRecord_notFound (s : State) (h : Nat) :
    getRecord s h = none ↔ s.nextId ≤ h := by
  unfold getRecord
  constructor
  · intro he
    by_contra hcon
    rw [if_pos (by omega)] at he
    exact Option.noConfusion he
  · intro hge
    rw [if_neg (by omega)]

/-- Claim C4: every key ever written to the records mapping is strictly
below nextId; the invariant holds in the initial state, is preserved by
register, and holds in every state reached by a serial execution
(getRecord and count are read-only functions of the state and change
nothing). -/
theorem claim_C4_keys_below_nextId :
    keysBounded initialState ∧
    (∀ s cid, keysBounded s → keysBounded (register s cid).state) ∧
    (∀ l, keysBounded (run l)) :=
  ⟨keysBounded_initial, keysBounded_register, keysBounded_run⟩

/-- Witness for claim C4 at a concrete input. -/
theorem claim_C4_keys_below_nextId_witness :
    keysBounded (register initialState "cidA").state :=
  claim_C4_keys_below_nextId.2.1 initialState "cidA" (by decide)

/-- Claim C5: a handle below nextId keeps its CID for the lifetime of the
registry: any further serial execution of register calls leaves the
existing record, through the public getter and through getRecord,
unchanged; register is the only mutator of the embedding, and no update
or delete operation exists. -/
theorem claim_C5_records_immutable (l₁ l₂ : List String) (h : Nat)
    (hh : h < (run l₁).nextId) :
    cidsGetter (run (l₁ ++ l₂)) h = cidsGetter (run l₁) h ∧
    getRecord (run (l₁ ++ l₂)) h = getRecord (run l₁) h := by
  have hget : cidsGetter (run (l₁ ++ l₂)) h = cidsGetter (run l₁) h := by
    rw [run_append]
    exact cidsGetter_runFrom_frame (run l₁) l₂ h hh
  refine ⟨hget, ?_⟩
  have hle : (run l₁).nextId ≤ (run (l₁ ++ l₂)).nextId := by
    rw [run_append]
    exact runFrom_nextId_le (run l₁) l₂
  unfold getRecord
  rw [if_pos hh, if_pos (by omega), hget]

/-- Witness for claim C5 at a concrete input. -/
theorem claim_C5_records_immutable_witness :
    cidsGetter (run (["cidA"] ++ ["cidB"])) 0 = cidsGetter (run ["cidA"]) 0 ∧
    getRecord (run (["cidA"] ++ ["cidB"])) 0 = getRecord (run ["cidA"]) 0 :=
  claim_C5_records_immutable ["cidA"] ["cidB"] 0 (by decide)

/-- Claim C6: on a freshly deployed contract, count returns 0 and
getRecord 0 is NotFound; in every state, count returns nextId. -/
theorem claim_C6_count (s : State) :
    count initialState = 0 ∧
    getRecord initialState 0 = none ∧
    count s = s.nextId :=
  ⟨rfl, rfl, rfl⟩

/-- Claim C7: from the freshly deployed contract, two serial register
calls with one and the same CID both succeed, each stores the CID, and
they return the distinct handles 0 and 1: duplicates are permitted, not
detected, and each receives a fresh handle. -/
theorem claim_C7_duplicate_cids (cid : String) :
    (register initialState cid).id = 0 ∧
    (register (register initialState cid).state cid).id = 1 ∧
    (register initialState cid).id ≠
      (register (register initialState cid).state cid).id ∧
    cidsGetter (register (register initialState cid).state cid).state 0 = cid ∧
    cidsGetter (register (register initialState cid).state cid).state 1 = cid := by
  refine ⟨rfl, rfl, ?_, ?_, ?_⟩
  · show (0 : Nat) ≠ 1
    omega
  · simp [cidsGetter, register, emitPointState, initialState, mapLookup]
  · simp [cidsGetter, register, emitPointState, initialState, mapLookup]

/-- Claim C8: register is a total function: for every string, including
the empty string and any malformed string, it performs no validation,
raises no error, stores the string exactly as given at the fresh handle,
and advances nextId. -/
theorem claim_C8_no_validation (s : State) (cid : String) :
    cidsGetter (register s cid).state (register s cid).id = cid ∧
    (register s cid).state.nextId = s.nextId + 1 :=
  ⟨cidsGetter_register_self s cid, rfl⟩

/-- Claim C9: every register call emits exactly one AssetRegistered event,
within the operation itself, whose payload is exactly the assigned handle
and the submitted cid; at the emission point, which comes after the store
and before the increment, the record is already stored. -/
theorem claim_C9_event (s : State) (cid : String) :
    (register s cid).events.length = 1 ∧
    (register s cid).events = [{ id := (register s cid).id, cid := cid }] ∧
    cidsGetter (emitPointState s cid) (register s cid).id = cid ∧
    (emitPointState s cid).nextId = s.nextId ∧
    (register s cid).state =
      { emitPointState s cid with nextId := s.nextId + 1 } := by
  refine ⟨rfl, rfl, ?_, rfl, rfl⟩
  simp [cidsGetter, emitPointState, register, mapLookup]

/-- Claim C10: registering the empty string at the end of any serial
execution yields a handle whose public cids lookup returns the empty
string, the very value the lookup returns for every unassigned handle, so
at the public getter a registered empty-CID record is indistinguishable
from an absent record. -/
theorem claim_C10_empty_cid_indistinguishable (l : List String) (k : Nat)
    (hk : (run (l ++ [""])).nextId ≤ k) :
    cidsGetter (run (l ++ [""])) ((run l).nextId) = "" ∧
    cidsGetter (run (l ++ [""])) k = "" := by
  constructor
  · rw [run_append]
    show cidsGetter (register (run l) "").state (run l).nextId = ""
    exact cidsGetter_register_self (run l) ""
  · exact cidsGetter_unassigned _ k (keysBounded_run (l ++ [""])) hk

/-- Witness for claim C10 at a concrete input. -/
theorem claim_C10_empty_cid_indistinguishable_witness :
    cidsGetter (run ([] ++ [""])) ((run []).nextId) = "" ∧
    cidsGetter (run ([] ++ [""])) 1 = "" :=
  claim_C10_empty_cid_indistinguishable [] 1 (by decide)

end AssetStorage
